import Mathlib

/-!
# Shallow embedding of the `fastapi-postgres-template` write path

This file embeds the data model, repositories, transaction manager, domain
services and the SQS consumer of the repository, and proves the frozen
claims about them.

Conventions of the embedding:
* UUIDs are modelled as `Nat`; `datetime` values as `Nat` ticks of a wall
  clock carried in the state; `Decimal` amounts as `Int`.
* Python exceptions become an `Err` sum type; a fallible operation returns
  `Except Err A` together with the successor state.
* The SQLAlchemy session is a pair of databases: the durable state at the
  moment the transaction opened (`base`) and the current in-transaction
  view (`cur`).  `commit` publishes `cur`, `rollback` restores `base`.
* The event publisher is fire-and-forget and outside the transactional
  store, so published events survive a rollback, exactly as in the code.
-/

namespace App

/-- Error taxonomy of `app/domain/exceptions.py` and
`app/infrastructure/db/exceptions.py`.  `noFieldsToUpdate` models
`NoFieldsToUpdateError`, which `app/domain/user/service.py` and
`app/domain/user/repo/sql.py` import and raise/catch; its class
declaration is not under `src/`, so it is modelled from the spec as a
distinct error kind ("fails with `NoFieldsToUpdate` if every field is
absent, distinguished from other faults"). -/
inductive Err where
  | validation (message : String) (field : Option String)
  | businessRule (message : String)
  | notFound (entityType : String) (identifier : String)
  | duplicate (entityType : String) (field : String) (value : String)
  | databaseError (message : String)
  | noFieldsToUpdate
  deriving Repr, DecidableEq

/-- `InvoiceStatus` from `app/domain/billing/invoice/model.py`. -/
inductive InvoiceStatus where
  | pending
  | paid
  deriving Repr, DecidableEq

/-- `User` entity from `app/domain/user/model.py` (also the `users` table
columns of `app/domain/user/repo/sql.py`). -/
structure User where
  id : Nat
  email : String
  name : String
  age : Option Int
  created_at : Nat
  updated_at : Nat
  deriving Repr, DecidableEq

/-- `Invoice` entity from `app/domain/billing/invoice/model.py`. -/
structure Invoice where
  id : Nat
  user_id : Nat
  amount : Int
  status : InvoiceStatus
  created_at : Nat
  paid_at : Option Nat
  updated_at : Nat
  deriving Repr, DecidableEq

/-- `RequiredOrUnset[T] = T | Unset` from `app/domain/types.py`. -/
inductive RequiredOrUnset (α : Type) where
  | unset
  | value (v : α)
  deriving Repr, DecidableEq

/-- `OptionalOrUnset[T] = T | None | Unset` from `app/domain/types.py`. -/
inductive OptionalOrUnset (α : Type) where
  | unset
  | null
  | value (v : α)
  deriving Repr, DecidableEq

namespace model

/-- `UserUpdate` from `app/domain/user/model.py`: the tri-state sparse
update the service layer builds (defaults are `UNSET`). -/
structure UserUpdate where
  email : RequiredOrUnset String := .unset
  name : RequiredOrUnset String := .unset
  age : OptionalOrUnset Int := .unset
  deriving Repr, DecidableEq

end model

namespace commands

/-- `UserUpdate` from `app/domain/user/commands.py`: the repository-level
sparse update with plain optional fields (defaults are `None`); this is the
parameter type of `UserRepository.update_partial` in
`app/domain/user/repo/sql.py` (via `app/domain/user/repo/base.py`). -/
structure UserUpdate where
  email : Option String := none
  name : Option String := none
  age : Option Int := none
  deriving Repr, DecidableEq

end commands

/-- Wiring between the service layer and the repository: a `model.UserUpdate`
flows into the repository parameter typed as `commands.UserUpdate`
(`app/domain/user/repo/base.py`).  A field the caller left `UNSET` arrives
at the repository as "not provided" (`None`), and so does an explicit null,
because `commands.UserUpdate` has plain optional fields and
`update_partial` only applies fields that are not `None`. -/
def model.UserUpdate.toCommand (u : model.UserUpdate) : commands.UserUpdate where
  email := match u.email with | .value v => some v | .unset => none
  name := match u.name with | .value v => some v | .unset => none
  age := match u.age with | .value v => some v | .null => none | .unset => none

/-- `CreateUser` command from `app/domain/user/commands.py`. -/
structure CreateUser where
  id : Nat
  email : String
  name : String
  age : Option Int
  created_at : Nat
  updated_at : Nat
  deriving Repr, DecidableEq

/-- `CreateInvoice` from `app/domain/billing/invoice/model.py`. -/
structure CreateInvoice where
  id : Nat
  user_id : Nat
  amount : Int
  created_at : Nat
  updated_at : Nat
  deriving Repr, DecidableEq

/-- A published domain event (`app/infrastructure/messaging/base.py` with
the concrete event classes of `app/domain/user/events/user_events.py` and
`app/domain/billing/invoice/events/invoice_events.py`).  Only the routing
fields and the `user.updated` diff payload are modelled; `changes` is the
list of `(field, old, new)` entries of `UserUpdatedEvent.changes`. -/
structure Event where
  event_type : String
  aggregate_type : String
  aggregate_id : String
  changes : List (String × String × String) := []
  deriving Repr, DecidableEq

/-- The relational store: the `users` and `invoices` tables. -/
structure DB where
  users : List User
  invoices : List Invoice
  deriving Repr, DecidableEq

/-- Row lookup by primary key, as `session.get(UserORM, user_id)`. -/
def DB.findUser (db : DB) (uid : Nat) : Option User :=
  db.users.find? (fun u => u.id == uid)

/-- `get_by_email`: `SELECT ... FROM users WHERE email = $1`. -/
def DB.findUserByEmail (db : DB) (email : String) : Option User :=
  db.users.find? (fun u => u.email == email)

/-- Row lookup by primary key on `invoices`. -/
def DB.findInvoice (db : DB) (iid : Nat) : Option Invoice :=
  db.invoices.find? (fun i => i.id == iid)

/-- Write back a `users` row: every row with the same primary key takes the
new value (an `UPDATE ... WHERE id = $1` / ORM flush of a loaded row). -/
def DB.setUser (db : DB) (row : User) : DB :=
  { db with users := db.users.map (fun u => if u.id == row.id then row else u) }

/-- Write back an `invoices` row. -/
def DB.setInvoice (db : DB) (row : Invoice) : DB :=
  { db with invoices := db.invoices.map (fun i => if i.id == row.id then row else i) }

/-- A SQLAlchemy session (`app/infrastructure/sql/context.py` +
`app/infrastructure/sql/sqlalchemy_pool.py`): `base` is the durable state
when the unit of work opened, `cur` the in-transaction view including
uncommitted writes.  `session.commit()` persists `cur`;
`session.rollback()` restores `base`. -/
structure Session where
  base : DB
  cur : DB
  deriving Repr, DecidableEq

/-- State visible inside a transaction block: the open session, the events
delivered to the bus so far (the publisher is outside the store and is not
rolled back), and the wall clock read by `datetime.now()`. -/
structure TxState where
  sess : Session
  published : List Event
  now : Nat
  deriving Repr, DecidableEq

/-- State between transactions: durable store, delivered events, clock. -/
structure World where
  db : DB
  published : List Event
  now : Nat
  deriving Repr, DecidableEq

/-- Opening a unit of work: a fresh session whose view equals the durable
state. -/
def World.openTx (w : World) : TxState :=
  { sess := { base := w.db, cur := w.db }, published := w.published, now := w.now }

/-- `SQLTransactionManager.transaction`
(`app/infrastructure/sql/transaction.py`; the control flow of
`app/infrastructure/postgres/transaction.py` is identical): run the block
on a fresh session; if it completes, `session.commit()` persists the
session's writes; if it raises, `session.rollback()` restores the state at
open and the exception is re-raised.  Events already handed to the
publisher and the clock are outside the store and survive either way. -/
def transaction {α : Type} (block : TxState → Except Err α × TxState)
    (w : World) : Except Err α × World :=
  match block w.openTx with
  | (.ok a, t) => (.ok a, { db := t.sess.cur, published := t.published, now := t.now })
  | (.error e, t) => (.error e, { db := t.sess.base, published := t.published, now := t.now })

/-- `EventPublisher.publish` (`app/infrastructure/messaging/publisher/sns.py`):
fire-and-forget delivery to the topic. -/
def publishEvent (e : Event) (t : TxState) : TxState :=
  { t with published := t.published ++ [e] }

namespace UserRepository

/-- `UserRepository.create` (`app/domain/user/repo/sql.py` 47-66): build a
`UserORM` row from the command and flush it.  A primary-key or
unique-email-index violation makes the flush raise, which the repository
converts to `DatabaseError` (the `users` table has `id` as primary key and
a unique index on `email`). -/
def create (cu : CreateUser) (t : TxState) : Except Err User × TxState :=
  if t.sess.cur.users.any (fun u => u.id == cu.id) ||
      t.sess.cur.users.any (fun u => u.email == cu.email) then
    (.error (.databaseError "Database error while creating user"), t)
  else
    let row : User :=
      { id := cu.id, email := cu.email, name := cu.name, age := cu.age,
        created_at := cu.created_at, updated_at := cu.updated_at }
    (.ok row, { t with sess := { t.sess with cur := { t.sess.cur with users := row :: t.sess.cur.users } } })

/-- `UserRepository.update` (`app/domain/user/repo/sql.py` 98-118): load the
row by id (`DatabaseError("User not found")` when absent), then assign
`email`, `name` and `updated_at = datetime.now()` and flush.  `age` and
`created_at` are not assigned. -/
def update (user : User) (t : TxState) : Except Err User × TxState :=
  match t.sess.cur.findUser user.id with
  | none => (.error (.databaseError "User not found"), t)
  | some orm_user =>
    let row := { orm_user with email := user.email, name := user.name, updated_at := t.now }
    (.ok row, { t with sess := { t.sess with cur := t.sess.cur.setUser row } })

/-- `UserRepository.update_partial` (`app/domain/user/repo/sql.py` 120-161):
load the row by id; assign each field of the sparse update that is not
`None`, tracking `has_updates`; raise `NoFieldsToUpdateError` when nothing
was assigned; otherwise refresh `updated_at = datetime.now()` and flush. -/
def update_partial (uid : Nat) (update : commands.UserUpdate)
    (t : TxState) : Except Err User × TxState :=
  match t.sess.cur.findUser uid with
  | none => (.error (.databaseError "User not found"), t)
  | some orm_user =>
    let step1 := match update.email with
      | some e => { orm_user with email := e }
      | none => orm_user
    let step2 := match update.name with
      | some n => { step1 with name := n }
      | none => step1
    let step3 := match update.age with
      | some a => { step2 with age := some a }
      | none => step2
    if update.email.isSome || update.name.isSome || update.age.isSome then
      let row := { step3 with updated_at := t.now }
      (.ok row, { t with sess := { t.sess with cur := t.sess.cur.setUser row } })
    else
      (.error .noFieldsToUpdate, t)

/-- `UserRepository.delete` (`app/domain/user/repo/sql.py` 163-173): delete
the row when present; deleting an absent id is not an error. -/
def delete (uid : Nat) (t : TxState) : TxState :=
  { t with sess := { t.sess with cur :=
      { t.sess.cur with users := t.sess.cur.users.filter (fun u => !(u.id == uid)) } } }

end UserRepository

namespace InvoiceRepository

/-- `InvoiceRepository.create` (`app/domain/billing/invoice/repo/pg.py`
17-34): `INSERT INTO invoices ... VALUES (..., 'pending', ...)`.  The
`invoices` table (`app/domain/billing/invoice/persistence/table.py`,
`app/domain/billing/invoice/repo/sql.py`) has `id` as primary key and
`user_id` as a foreign key to `users.id`, so the statement fails at the
store when the id already exists or the referenced user does not. -/
def create (ci : CreateInvoice) (t : TxState) : Except Err Invoice × TxState :=
  if t.sess.cur.invoices.any (fun i => i.id == ci.id) then
    (.error (.databaseError "duplicate key value violates unique constraint"), t)
  else if !(t.sess.cur.users.any (fun u => u.id == ci.user_id)) then
    (.error (.databaseError "insert or update on table invoices violates foreign key constraint"), t)
  else
    let row : Invoice :=
      { id := ci.id, user_id := ci.user_id, amount := ci.amount, status := .pending,
        created_at := ci.created_at, paid_at := none, updated_at := ci.updated_at }
    (.ok row, { t with sess := { t.sess with cur := { t.sess.cur with invoices := row :: t.sess.cur.invoices } } })

/-- `InvoiceRepository.update` (`app/domain/billing/invoice/repo/pg.py`
50-66): `UPDATE invoices SET status = $2, paid_at = $3, updated_at = $4
WHERE id = $1 RETURNING ...`; raises when no row is returned. -/
def update (invoice : Invoice) (t : TxState) : Except Err Invoice × TxState :=
  match t.sess.cur.findInvoice invoice.id with
  | none => (.error (.databaseError "Failed to update invoice: no row returned"), t)
  | some stored =>
    let row := { stored with
                 status := invoice.status, paid_at := invoice.paid_at,
                 updated_at := invoice.updated_at }
    (.ok row, { t with sess := { t.sess with cur := t.sess.cur.setInvoice row } })

/-- `InvoiceRepository.delete_by_user_id`
(`app/domain/billing/invoice/repo/pg.py` 68-76): bulk
`DELETE FROM invoices WHERE user_id = $1`; safe with zero matches. -/
def delete_by_user_id (uid : Nat) (t : TxState) : TxState :=
  { t with sess := { t.sess with cur :=
      { t.sess.cur with invoices := t.sess.cur.invoices.filter (fun i => !(i.user_id == uid)) } } }

end InvoiceRepository

/-- A whitespace character as stripped by Python str.strip(). -/
def isSpaceChar (c : Char) : Bool :=
  c == ' ' || c == '\t' || c == '\n' || c == '\r'

/-- Python str.strip(): drop leading and trailing whitespace. -/
def strip (s : String) : String :=
  String.mk (((s.data.dropWhile isSpaceChar).reverse.dropWhile isSpaceChar).reverse)

/-- `validate_name` (`app/domain/user/validators.py` 14-28): an `UNSET` name
passes; a provided name must be non-empty and not whitespace-only
(`if not name or not name.strip()`). -/
def validate_name : RequiredOrUnset String → Except Err Unit
  | .unset => .ok ()
  | .value n =>
    if n = "" || strip n = "" then
      .error (.validation "Name cannot be empty" (some "name"))
    else
      .ok ()

/-- `validate_email_not_duplicate` (`app/domain/user/validators.py` 31-55):
an `UNSET` email passes; an email equal to the current user's email skips
the check; otherwise `get_by_email` must find nothing. -/
def validate_email_not_duplicate (email : RequiredOrUnset String)
    (current_email : String) (t : TxState) : Except Err Unit :=
  match email with
  | .unset => .ok ()
  | .value e =>
    if e = current_email then .ok ()
    else
      match t.sess.cur.findUserByEmail e with
      | some _ => .error (.duplicate "User" "email" e)
      | none => .ok ()

/-- `validate_create_invoice_request`
(`app/domain/billing/invoice/validators.py` 9-25): the cross-aggregate
check that the referenced user exists.  Note: it exists in the repository
and the unit test `tests/unit/domain/billing/invoice/test_service.py`
asserts `InvoiceService.create_invoice` calls it, but
`app/domain/billing/invoice/service.py` never does. -/
def validate_create_invoice_request (user_id : Nat) (t : TxState) : Except Err Unit :=
  match t.sess.cur.findUser user_id with
  | none => .error (.notFound "User" (toString user_id))
  | some _ => .ok ()

/-- Stringification of an optional age as in `app/domain/user/diff.py`
(`str(value)` with `"None"` for `None`). -/
def ageString : Option Int → String
  | none => "None"
  | some n => toString n

/-- `generate_user_changes` (`app/domain/user/diff.py` 7-42): for each field
whose tri-state is not `UNSET` and whose value differs from the original,
record a `(field, old, new)` entry. -/
def generate_user_changes (user_update : model.UserUpdate) (original : User) :
    List (String × String × String) :=
  (match user_update.email with
   | .unset => []
   | .value e => if e ≠ original.email then [("email", original.email, e)] else []) ++
  (match user_update.name with
   | .unset => []
   | .value n => if n ≠ original.name then [("name", original.name, n)] else []) ++
  (match user_update.age with
   | .unset => []
   | .null => if original.age ≠ none then [("age", ageString original.age, "None")] else []
   | .value v => if original.age ≠ some v then [("age", ageString original.age, toString v)] else [])

namespace UserService

/-- `UserService.create_user` (`app/domain/user/service.py` 37-55), inside
one transaction: `get_by_email` and raise `DuplicateError` when a user with
that email exists; otherwise insert a row with a fresh id (`uuid7()`,
modelled by the `uid` argument) and `created_at = updated_at = now`, then
construct and publish `UserCreatedEvent`.  Constructing the event validates
`name` with pydantic `min_length=1`
(`app/domain/user/events/user_events.py`), so an empty (but not a
whitespace-only) name raises there, after the insert. -/
def create_user_body (uid : Nat) (email : String) (name : String) (age : Option Int)
    (t : TxState) : Except Err User × TxState :=
  match t.sess.cur.findUserByEmail email with
  | some _ => (.error (.duplicate "User" "email" email), t)
  | none =>
    let cu : CreateUser :=
      { id := uid, email := email, name := name, age := age,
        created_at := t.now, updated_at := t.now }
    match UserRepository.create cu t with
    | (.error e, t1) => (.error e, t1)
    | (.ok user, t1) =>
      if user.name.length = 0 then
        (.error (.validation "String should have at least 1 character" (some "name")), t1)
      else
        (.ok user, publishEvent
          { event_type := "user.created", aggregate_type := "user",
            aggregate_id := toString user.id } t1)

/-- The `create_user` service call: its body run under one transaction. -/
def create_user (uid : Nat) (email : String) (name : String) (age : Option Int) :
    World → Except Err User × World :=
  transaction (create_user_body uid email name age)

/-- `UserService.patch_user` (`app/domain/user/service.py` 62-102), inside
one transaction: load the user (`NotFoundError` when absent); build the
tri-state `UserUpdate`; `validate_name`; `validate_email_not_duplicate`;
compute the diff with `generate_user_changes`; call
`UserRepository.update_partial`, catching `NoFieldsToUpdateError` by
returning the loaded user unchanged; publish `UserUpdatedEvent` only when
the diff is non-empty. -/
def patch_user_body (uid : Nat) (email : RequiredOrUnset String)
    (name : RequiredOrUnset String) (age : OptionalOrUnset Int)
    (t : TxState) : Except Err User × TxState :=
  match t.sess.cur.findUser uid with
  | none => (.error (.notFound "User" (toString uid)), t)
  | some user =>
    let user_update : model.UserUpdate := { email := email, name := name, age := age }
    match validate_name name with
    | .error e => (.error e, t)
    | .ok _ =>
      match validate_email_not_duplicate email user.email t with
      | .error e => (.error e, t)
      | .ok _ =>
        let changes := generate_user_changes user_update user
        match UserRepository.update_partial uid user_update.toCommand t with
        | (.error .noFieldsToUpdate, t1) => (.ok user, t1)
        | (.error e, t1) => (.error e, t1)
        | (.ok updated_user, t1) =>
          if changes.isEmpty then
            (.ok updated_user, t1)
          else
            (.ok updated_user, publishEvent
              { event_type := "user.updated", aggregate_type := "user",
                aggregate_id := toString updated_user.id, changes := changes } t1)

/-- The `patch_user` service call: its body run under one transaction. -/
def patch_user (uid : Nat) (email : RequiredOrUnset String)
    (name : RequiredOrUnset String) (age : OptionalOrUnset Int) :
    World → Except Err User × World :=
  transaction (patch_user_body uid email name age)

/-- `UserService.delete_user` (`app/domain/user/service.py` 111-123), inside
one transaction: load the user (`NotFoundError` when absent); cascade via
`InvoiceService._delete_invoices_by_user_id_in_transaction` (which only
calls `InvoiceRepository.delete_by_user_id` on the open context,
`app/domain/billing/invoice/service.py` 125-133); then delete the user
row. -/
def delete_user_body (uid : Nat) (t : TxState) : Except Err Unit × TxState :=
  match t.sess.cur.findUser uid with
  | none => (.error (.notFound "User" (toString uid)), t)
  | some user =>
    let t1 := InvoiceRepository.delete_by_user_id user.id t
    let t2 := UserRepository.delete uid t1
    (.ok (), t2)

/-- The `delete_user` service call: its body run under one transaction. -/
def delete_user (uid : Nat) : World → Except Err Unit × World :=
  transaction (delete_user_body uid)

end UserService

namespace InvoiceService

/-- `InvoiceService.create_invoice` (`app/domain/billing/invoice/service.py`
36-59): inside one transaction, generate id (`uuid7()`, modelled by the
`iid` argument) and timestamps, insert with status `PENDING`, publish
`invoice.created`; then, only after the transaction committed, publish a
second `invoice.payment_requested` event outside the transaction.  No user
existence check is performed (`validate_create_invoice_request` is never
called). -/
def create_invoice_body (iid : Nat) (user_id : Nat) (amount : Int)
    (t : TxState) : Except Err Invoice × TxState :=
  let ci : CreateInvoice :=
    { id := iid, user_id := user_id, amount := amount,
      created_at := t.now, updated_at := t.now }
  match InvoiceRepository.create ci t with
  | (.error e, t1) => (.error e, t1)
  | (.ok invoice, t1) =>
    (.ok invoice, publishEvent
      { event_type := "invoice.created", aggregate_type := "invoice",
        aggregate_id := toString invoice.id } t1)

/-- The `create_invoice` service call: the transactional body followed by
the post-commit `invoice.payment_requested` publish (reached only when the
transaction completed without raising). -/
def create_invoice (iid : Nat) (user_id : Nat) (amount : Int) (w : World) :
    Except Err Invoice × World :=
  match transaction (create_invoice_body iid user_id amount) w with
  | (.ok invoice, w1) =>
    (.ok invoice, { w1 with published := w1.published ++
      [{ event_type := "invoice.payment_requested", aggregate_type := "invoice",
         aggregate_id := toString invoice.id }] })
  | (.error e, w1) => (.error e, w1)

/-- `InvoiceService.mark_invoice_paid`
(`app/domain/billing/invoice/service.py` 66-97), inside one transaction:
load the invoice (`NotFoundError` when absent); raise
`BusinessRuleError("Invoice is already paid")` when its status is already
`PAID`; otherwise build the updated invoice with `status = PAID`,
`paid_at = now`, `updated_at = now`, persist it with
`InvoiceRepository.update`, and publish `invoice.paid`. -/
def mark_invoice_paid_body (iid : Nat) (t : TxState) : Except Err Invoice × TxState :=
  match t.sess.cur.findInvoice iid with
  | none => (.error (.notFound "Invoice" (toString iid)), t)
  | some invoice =>
    if invoice.status = .paid then
      (.error (.businessRule "Invoice is already paid"), t)
    else
      let updated_invoice := { invoice with
        status := InvoiceStatus.paid, paid_at := some t.now, updated_at := t.now }
      match InvoiceRepository.update updated_invoice t with
      | (.error e, t1) => (.error e, t1)
      | (.ok updated, t1) =>
        (.ok updated, publishEvent
          { event_type := "invoice.paid", aggregate_type := "invoice",
            aggregate_id := toString updated.id } t1)

/-- The `mark_invoice_paid` service call: its body run under one
transaction. -/
def mark_invoice_paid (iid : Nat) : World → Except Err Invoice × World :=
  transaction (mark_invoice_paid_body iid)

/-- `InvoiceService.request_payment` (`app/domain/billing/invoice/service.py`
104-115): load the invoice (`NotFoundError` when absent) and publish
`invoice.payment_requested` without mutating storage. -/
def request_payment_body (iid : Nat) (t : TxState) : Except Err Invoice × TxState :=
  match t.sess.cur.findInvoice iid with
  | none => (.error (.notFound "Invoice" (toString iid)), t)
  | some invoice =>
    (.ok invoice, publishEvent
      { event_type := "invoice.payment_requested", aggregate_type := "invoice",
        aggregate_id := toString iid } t)

/-- The `request_payment` service call: its body run under one
transaction. -/
def request_payment (iid : Nat) : World → Except Err Invoice × World :=
  transaction (request_payment_body iid)

end InvoiceService

/-- The mutating operations of the two domain services, as one step
alphabet for stating system-wide invariants such as the invoice state
machine. -/
inductive Op where
  | createUser (uid : Nat) (email : String) (name : String) (age : Option Int)
  | patchUser (uid : Nat) (email : RequiredOrUnset String)
      (name : RequiredOrUnset String) (age : OptionalOrUnset Int)
  | deleteUser (uid : Nat)
  | createInvoice (iid : Nat) (user_id : Nat) (amount : Int)
  | markPaid (iid : Nat)
  | requestPayment (iid : Nat)

/-- Successor state of one service call (the returned value is dropped). -/
def applyOp : Op → World → World
  | .createUser uid email name age, w => (UserService.create_user uid email name age w).2
  | .patchUser uid email name age, w => (UserService.patch_user uid email name age w).2
  | .deleteUser uid, w => (UserService.delete_user uid w).2
  | .createInvoice iid user_id amount, w => (InvoiceService.create_invoice iid user_id amount w).2
  | .markPaid iid, w => (InvoiceService.mark_invoice_paid iid w).2
  | .requestPayment iid, w => (InvoiceService.request_payment iid w).2

namespace SQSConsumer

/-- One received SQS message: its receipt handle and raw body. -/
structure SQSMessage where
  receiptHandle : Nat
  body : String
  deriving Repr, DecidableEq

/-- `SQSConsumer.nack` (`app/infrastructure/messaging/consumer/sqs.py`
131-135): logs a warning and issues no `delete_message`; the message stays
on the queue and becomes visible again after the visibility timeout.  The
value is the list of receipt handles deleted: none. -/
def nack (_receiptHandle : Nat) : List Nat := []

/-- `SQSConsumer.ack` (`app/infrastructure/messaging/consumer/sqs.py`
113-129): `delete_message` for the receipt handle. -/
def ack (receiptHandle : Nat) : List Nat := [receiptHandle]

/-- The per-message `try` block of `SQSConsumer.consume`
(`app/infrastructure/messaging/consumer/sqs.py` 79-107): deserialize the
body, run the handler, and on success `ack`; any exception in the block is
caught, logged, and answered with `nack`.  The result is the list of
receipt handles the iteration deleted. -/
def processMessage (deserializer : String → Except String Event)
    (handler : Event → Except String Unit) (m : SQSMessage) : List Nat :=
  match deserializer m.body with
  | .error _ => nack m.receiptHandle
  | .ok event =>
    match handler event with
    | .error _ => nack m.receiptHandle
    | .ok _ => ack m.receiptHandle

/-- The `for message in messages` loop of one `consume` iteration: every
message of the batch is processed, regardless of earlier failures. -/
def processBatch (deserializer : String → Except String Event)
    (handler : Event → Except String Unit) : List SQSMessage → List Nat
  | [] => []
  | m :: rest => processMessage deserializer handler m ++ processBatch deserializer handler rest

/-- A finite trace of the `while True` receive loop of `SQSConsumer.consume`
(`app/infrastructure/messaging/consumer/sqs.py` 60-111): each iteration
long-polls; a `ClientError` from the receive call is logged and the loop
continues; otherwise the batch is processed message by message.  The
result is the list of receipt handles deleted over the trace. -/
def consume (deserializer : String → Except String Event)
    (handler : Event → Except String Unit) :
    List (Except String (List SQSMessage)) → List Nat
  | [] => []
  | .error _ :: rest => consume deserializer handler rest
  | .ok msgs :: rest =>
    processBatch deserializer handler msgs ++ consume deserializer handler rest

end SQSConsumer

/-- The messages of the successfully received batches of a trace, in order
(receive iterations that raised `ClientError` contribute nothing). -/
def okMessages : List (Except String (List SQSConsumer.SQSMessage)) →
    List SQSConsumer.SQSMessage
  | [] => []
  | .error _ :: rest => okMessages rest
  | .ok msgs :: rest => msgs ++ okMessages rest

/-- The explicit tri-state carrying a stored optional value: the façade
sends an explicit `null` for a `None` and an explicit value otherwise
(`app/domain/types.py`: null is itself a meaningful value for nullable
fields). -/
def ageExplicit : Option Int → OptionalOrUnset Int
  | none => .null
  | some n => .value n

/-! Concrete sample data used by witnesses and counterexamples. -/

/-- A stored user row. -/
def annUser : User :=
  { id := 1, email := "a@b.com", name := "Ann", age := some 30, created_at := 0, updated_at := 0 }

/-- A stored user row whose name is whitespace-only (insertable because
`create_user` never validates the name, see the C6 theorem). -/
def blankNameUser : User :=
  { id := 1, email := "b@c.com", name := " ", age := none, created_at := 0, updated_at := 0 }

/-- A stored invoice that is already paid. -/
def paidInvoice : Invoice :=
  { id := 3, user_id := 1, amount := 100, status := .paid, created_at := 0,
    paid_at := some 1, updated_at := 1 }

/-- An empty store. -/
def emptyWorld : World :=
  { db := { users := [], invoices := [] }, published := [], now := 5 }

/-- A store holding `annUser` and `paidInvoice`. -/
def annWorld : World :=
  { db := { users := [annUser], invoices := [paidInvoice] }, published := [], now := 5 }

/-- A store holding only `blankNameUser`. -/
def blankNameWorld : World :=
  { db := { users := [blankNameUser], invoices := [] }, published := [], now := 5 }

/-- An open transaction over a store holding `annUser`. -/
def annTx : TxState :=
  { sess := { base := { users := [annUser], invoices := [] },
              cur := { users := [annUser], invoices := [] } },
    published := [], now := 9 }

/-- A transaction block that performs a storage write and then raises. -/
def demoFailBlock : TxState → Except Err Unit × TxState :=
  fun t => (.error (.businessRule "boom"), UserRepository.delete 1 t)

/-- A message decoder for the consumer witness: the body "bad" fails to
decode, every other body decodes to an event typed by the body. -/
def demoDeserializer : String → Except String Event :=
  fun s => if s = "bad" then .error "decode failure" else .ok
    { event_type := s, aggregate_type := "invoice", aggregate_id := "1" }

/-- A handler for the consumer witness that raises on events typed "fail". -/
def demoHandler : Event → Except String Unit :=
  fun e => if e.event_type = "fail" then .error "handler failure" else .ok ()

/-- A receive trace for the consumer witness: one failed receive, then a
batch with a failing message before a succeeding one. -/
def demoBatches : List (Except String (List SQSConsumer.SQSMessage)) :=
  [.error "connectivity", .ok [{ receiptHandle := 10, body := "fail" },
                               { receiptHandle := 11, body := "ok" }]]

/-- `annUser` with a different age, used to probe `update`. -/
def annUserAge31 : User := { annUser with age := some 31 }

/-! ## Helper lemmas -/

/-- Writing back a `users` row rewrites exactly the rows carrying its
primary key; lookups see the written row through the key it keeps. -/
theorem findUser_setUser (db : DB) (row : User) (j : Nat) :
    (db.setUser row).findUser j
      = (db.findUser j).map (fun u => if u.id == row.id then row else u) := by
  unfold DB.setUser DB.findUser
  rw [List.find?_map]
  have hp : ((fun u => u.id == j) ∘ fun u => if (u.id == row.id) = true then row else u)
      = (fun u : User => u.id == j) := by
    funext u
    by_cases h : u.id == row.id
    · have hid : u.id = row.id := by simpa using h
      simp [Function.comp, h, hid]
    · simp [Function.comp, h]
  rw [hp]

/-- Counterpart of `findUser_setUser` for the `invoices` table. -/
theorem findInvoice_setInvoice (db : DB) (row : Invoice) (j : Nat) :
    (db.setInvoice row).findInvoice j
      = (db.findInvoice j).map (fun i => if i.id == row.id then row else i) := by
  unfold DB.setInvoice DB.findInvoice
  rw [List.find?_map]
  have hp : ((fun i => i.id == j) ∘ fun i => if (i.id == row.id) = true then row else i)
      = (fun i : Invoice => i.id == j) := by
    funext i
    by_cases h : i.id == row.id
    · have hid : i.id = row.id := by simpa using h
      simp [Function.comp, h, hid]
    · simp [Function.comp, h]
  rw [hp]

/-- A row found by primary key carries that key. -/
theorem findUser_id {db : DB} {j : Nat} {u : User} (h : db.findUser j = some u) :
    u.id = j := by
  have := List.find?_some h
  simpa using this

/-- A row found by primary key carries that key (invoices). -/
theorem findInvoice_id {db : DB} {j : Nat} {i : Invoice} (h : db.findInvoice j = some i) :
    i.id = j := by
  have := List.find?_some h
  simpa using this

/-- With distinct primary keys, a successful key lookup in any filtered
version of the table returns the same row as in the full table. -/
theorem findInvoice_filter_eq {l : List Invoice}
    (hnd : (l.map Invoice.id).Nodup) (q : Invoice → Bool) {j : Nat} {i i1 : Invoice}
    (h : l.find? (fun x => x.id == j) = some i)
    (h1 : (l.filter q).find? (fun x => x.id == j) = some i1) :
    i1 = i := by
  have hi : i ∈ l := List.mem_of_find?_eq_some h
  have hi1 : i1 ∈ l.filter q := List.mem_of_find?_eq_some h1
  have hi1l : i1 ∈ l := List.mem_of_mem_filter hi1
  have hkey : i.id = j := by simpa using List.find?_some h
  have hkey1 : i1.id = j := by simpa using List.find?_some h1
  exact List.inj_on_of_nodup_map hnd hi1l hi (by rw [hkey, hkey1])

/-- Processing a message deletes either nothing or exactly that message's
receipt handle. -/
theorem processMessage_eq_nil_or_ack (d : String → Except String Event)
    (h : Event → Except String Unit) (m : SQSConsumer.SQSMessage) :
    SQSConsumer.processMessage d h m = []
    ∨ SQSConsumer.processMessage d h m = [m.receiptHandle] := by
  cases hd : d m.body with
  | error e =>
    exact Or.inl (by simp [SQSConsumer.processMessage, SQSConsumer.nack, hd])
  | ok event =>
    cases hh : h event with
    | error e =>
      exact Or.inl (by simp [SQSConsumer.processMessage, SQSConsumer.nack, hd, hh])
    | ok u =>
      exact Or.inr (by simp [SQSConsumer.processMessage, SQSConsumer.ack, hd, hh])

/-- Batch processing distributes over concatenation of batches. -/
theorem processBatch_append (d : String → Except String Event)
    (h : Event → Except String Unit) (a b : List SQSConsumer.SQSMessage) :
    SQSConsumer.processBatch d h (a ++ b)
      = SQSConsumer.processBatch d h a ++ SQSConsumer.processBatch d h b := by
  induction a with
  | nil => simp [SQSConsumer.processBatch]
  | cons x rest ih =>
    simp [SQSConsumer.processBatch, ih, List.append_assoc]

/-- The deletes performed over a whole receive trace are exactly the
deletes performed on the successfully received messages in order: failed
receive calls are skipped and the loop goes on. -/
theorem consume_eq_processBatch_okMessages (d : String → Except String Event)
    (h : Event → Except String Unit)
    (batches : List (Except String (List SQSConsumer.SQSMessage))) :
    SQSConsumer.consume d h batches = SQSConsumer.processBatch d h (okMessages batches) := by
  induction batches with
  | nil => rfl
  | cons b rest ih =>
    rcases b with _ | msgs
    · simpa [SQSConsumer.consume, okMessages] using ih
    · simp [SQSConsumer.consume, okMessages, processBatch_append, ih]

/-- A message whose decode and handler both succeed is acknowledged by the
processing of any batch containing it, regardless of what happens to the
other messages. -/
theorem processBatch_ack_of_ok (d : String → Except String Event)
    (h : Event → Except String Unit) {msgs : List SQSConsumer.SQSMessage}
    {m1 : SQSConsumer.SQSMessage} (hm : m1 ∈ msgs) {ev1 : Event}
    (hd : d m1.body = .ok ev1) (hh : h ev1 = .ok ()) :
    m1.receiptHandle ∈ SQSConsumer.processBatch d h msgs := by
  induction msgs with
  | nil => cases hm
  | cons x rest ih =>
    rcases List.mem_cons.mp hm with hx | hr
    · subst hx
      unfold SQSConsumer.processBatch
      refine List.mem_append_left _ ?_
      simp [SQSConsumer.processMessage, SQSConsumer.ack, hd, hh]
    · unfold SQSConsumer.processBatch
      exact List.mem_append_right _ (ih hr)

/-- A message whose processing deletes nothing is never acknowledged by a
batch in which its receipt handle is unambiguous. -/
theorem processBatch_no_ack_of_fail (d : String → Except String Event)
    (h : Event → Except String Unit) {msgs : List SQSConsumer.SQSMessage}
    {m : SQSConsumer.SQSMessage}
    (hfail : SQSConsumer.processMessage d h m = [])
    (huniq : ∀ m1 ∈ msgs, m1.receiptHandle = m.receiptHandle → m1 = m) :
    m.receiptHandle ∉ SQSConsumer.processBatch d h msgs := by
  induction msgs with
  | nil => simp [SQSConsumer.processBatch]
  | cons x rest ih =>
    intro hmem
    unfold SQSConsumer.processBatch at hmem
    rcases List.mem_append.mp hmem with h1 | h2
    · rcases processMessage_eq_nil_or_ack d h x with hx | hx
      · rw [hx] at h1
        cases h1
      · rw [hx] at h1
        have hrh : m.receiptHandle = x.receiptHandle := by simpa using h1
        have hxm : x = m := huniq x (List.mem_cons_self x rest) hrh.symm
        rw [hxm, hfail] at hx
        cases hx
    · exact ih (fun m1 hm1 hrh => huniq m1 (List.mem_cons_of_mem x hm1) hrh) h2

/-- `UserRepository.create` never touches the session's recorded base. -/
theorem create_user_repo_base (cu : CreateUser) (t : TxState) :
    ((UserRepository.create cu t).2).sess.base = t.sess.base := by
  unfold UserRepository.create
  split <;> rfl

/-- `UserRepository.create` never touches the invoices table. -/
theorem create_user_repo_invoices (cu : CreateUser) (t : TxState) :
    ((UserRepository.create cu t).2).sess.cur.invoices = t.sess.cur.invoices := by
  unfold UserRepository.create
  split <;> rfl

/-- `UserRepository.update_partial` never touches the session's base. -/
theorem update_partial_repo_base (uid : Nat) (u : commands.UserUpdate) (t : TxState) :
    (( UserRepository.update_partial uid u t).2).sess.base = t.sess.base := by
  unfold UserRepository.update_partial
  rcases u with ⟨ue, un, ua⟩
  cases h : t.sess.cur.findUser uid with
  | none => rfl
  | some orm_user => cases ue <;> cases un <;> cases ua <;> simp

/-- `UserRepository.update_partial` never touches the invoices table. -/
theorem update_partial_repo_invoices (uid : Nat) (u : commands.UserUpdate) (t : TxState) :
    (( UserRepository.update_partial uid u t).2).sess.cur.invoices = t.sess.cur.invoices := by
  unfold UserRepository.update_partial
  rcases u with ⟨ue, un, ua⟩
  cases h : t.sess.cur.findUser uid with
  | none => rfl
  | some orm_user => cases ue <;> cases un <;> cases ua <;> simp [DB.setUser]

/-- The body of `create_user` never touches the session's base. -/
theorem create_user_body_base (uid : Nat) (email name : String) (age : Option Int) (t : TxState) :
    ((UserService.create_user_body uid email name age t).2).sess.base = t.sess.base := by
  unfold UserService.create_user_body
  cases hfe : t.sess.cur.findUserByEmail email with
  | some u => rfl
  | none =>
    dsimp only
    cases hc : UserRepository.create
        { id := uid, email := email, name := name, age := age,
          created_at := t.now, updated_at := t.now } t with
    | mk r t1 =>
      have h0 := create_user_repo_base
        { id := uid, email := email, name := name, age := age,
          created_at := t.now, updated_at := t.now } t
      rw [hc] at h0
      cases r with
      | error e => simpa using h0
      | ok user =>
        by_cases hn : user.name.length = 0
        · simpa [hn] using h0
        · simpa [hn, publishEvent] using h0

/-- The body of `create_user` never touches the invoices table. -/
theorem create_user_body_invoices (uid : Nat) (email name : String) (age : Option Int)
    (t : TxState) :
    ((UserService.create_user_body uid email name age t).2).sess.cur.invoices
      = t.sess.cur.invoices := by
  unfold UserService.create_user_body
  cases hfe : t.sess.cur.findUserByEmail email with
  | some u => rfl
  | none =>
    dsimp only
    cases hc : UserRepository.create
        { id := uid, email := email, name := name, age := age,
          created_at := t.now, updated_at := t.now } t with
    | mk r t1 =>
      have h0 := create_user_repo_invoices
        { id := uid, email := email, name := name, age := age,
          created_at := t.now, updated_at := t.now } t
      rw [hc] at h0
      cases r with
      | error e => simpa using h0
      | ok user =>
        by_cases hn : user.name.length = 0
        · simpa [hn] using h0
        · simpa [hn, publishEvent] using h0

/-- `InvoiceRepository.create` never touches the session's base. -/
theorem create_invoice_repo_base (ci : CreateInvoice) (t : TxState) :
    ((InvoiceRepository.create ci t).2).sess.base = t.sess.base := by
  unfold InvoiceRepository.create
  split
  · rfl
  · split <;> rfl

/-- `InvoiceRepository.update` never touches the session's base. -/
theorem update_invoice_repo_base (inv : Invoice) (t : TxState) :
    ((InvoiceRepository.update inv t).2).sess.base = t.sess.base := by
  unfold InvoiceRepository.update
  split <;> rfl

/-- The body of `patch_user` never touches the session's base. -/
theorem patch_user_body_base (uid : Nat) (email : RequiredOrUnset String)
    (name : RequiredOrUnset String) (age : OptionalOrUnset Int) (t : TxState) :
    ((UserService.patch_user_body uid email name age t).2).sess.base = t.sess.base := by
  unfold UserService.patch_user_body
  cases hf : t.sess.cur.findUser uid with
  | none => rfl
  | some user =>
    dsimp only
    cases hv : validate_name name with
    | error e => rfl
    | ok v1 =>
      cases hd : validate_email_not_duplicate email user.email t with
      | error e => rfl
      | ok v2 =>
        cases hup : UserRepository.update_partial uid
            (model.UserUpdate.toCommand { email := email, name := name, age := age }) t with
        | mk r t1 =>
          have h0 := update_partial_repo_base uid
            (model.UserUpdate.toCommand { email := email, name := name, age := age }) t
          rw [hup] at h0
          cases r with
          | error e => cases e <;> simpa using h0
          | ok updated_user =>
            by_cases hch :
                (generate_user_changes { email := email, name := name, age := age } user).isEmpty
            · simpa [hch] using h0
            · simpa [hch, publishEvent] using h0

/-- The body of `patch_user` never touches the invoices table. -/
theorem patch_user_body_invoices (uid : Nat) (email : RequiredOrUnset String)
    (name : RequiredOrUnset String) (age : OptionalOrUnset Int) (t : TxState) :
    ((UserService.patch_user_body uid email name age t).2).sess.cur.invoices
      = t.sess.cur.invoices := by
  unfold UserService.patch_user_body
  cases hf : t.sess.cur.findUser uid with
  | none => rfl
  | some user =>
    dsimp only
    cases hv : validate_name name with
    | error e => rfl
    | ok v1 =>
      cases hd : validate_email_not_duplicate email user.email t with
      | error e => rfl
      | ok v2 =>
        cases hup : UserRepository.update_partial uid
            (model.UserUpdate.toCommand { email := email, name := name, age := age }) t with
        | mk r t1 =>
          have h0 := update_partial_repo_invoices uid
            (model.UserUpdate.toCommand { email := email, name := name, age := age }) t
          rw [hup] at h0
          cases r with
          | error e => cases e <;> simpa using h0
          | ok updated_user =>
            by_cases hch :
                (generate_user_changes { email := email, name := name, age := age } user).isEmpty
            · simpa [hch] using h0
            · simpa [hch, publishEvent] using h0

/-- The body of `delete_user` never touches the session's base. -/
theorem delete_user_body_base (uid : Nat) (t : TxState) :
    ((UserService.delete_user_body uid t).2).sess.base = t.sess.base := by
  unfold UserService.delete_user_body
  cases hf : t.sess.cur.findUser uid with
  | none => rfl
  | some user => rfl

/-- The body of `delete_user` either leaves the invoices table alone or
bulk-deletes exactly the deleted user's invoices. -/
theorem delete_user_body_invoices (uid : Nat) (t : TxState) :
    ((UserService.delete_user_body uid t).2).sess.cur.invoices = t.sess.cur.invoices
    ∨ ∃ target, ((UserService.delete_user_body uid t).2).sess.cur.invoices
        = t.sess.cur.invoices.filter (fun i => !(i.user_id == target)) := by
  unfold UserService.delete_user_body
  cases hf : t.sess.cur.findUser uid with
  | none => exact Or.inl rfl
  | some user =>
    exact Or.inr ⟨user.id, rfl⟩

/-- The body of `create_invoice` never touches the session's base. -/
theorem create_invoice_body_base (iid : Nat) (target : Nat) (amount : Int) (t : TxState) :
    ((InvoiceService.create_invoice_body iid target amount t).2).sess.base = t.sess.base := by
  unfold InvoiceService.create_invoice_body
  dsimp only
  cases hc : InvoiceRepository.create
      { id := iid, user_id := target, amount := amount,
        created_at := t.now, updated_at := t.now } t with
  | mk r t1 =>
    have h0 := create_invoice_repo_base
      { id := iid, user_id := target, amount := amount,
        created_at := t.now, updated_at := t.now } t
    rw [hc] at h0
    cases r with
    | error e => simpa using h0
    | ok invoice => simpa [publishEvent] using h0

/-- The body of `create_invoice` either leaves the invoices table alone
(the insert failed at the store) or prepends a fresh `PENDING` row whose
primary key was absent. -/
theorem create_invoice_body_invoices (iid : Nat) (target : Nat) (amount : Int) (t : TxState) :
    ((InvoiceService.create_invoice_body iid target amount t).2).sess.cur.invoices
      = t.sess.cur.invoices
    ∨ ((t.sess.cur.invoices.any (fun i => i.id == iid)) = false ∧
       ((InvoiceService.create_invoice_body iid target amount t).2).sess.cur.invoices
         = { id := iid, user_id := target, amount := amount, status := .pending,
             created_at := t.now, paid_at := none,
             updated_at := t.now } :: t.sess.cur.invoices) := by
  unfold InvoiceService.create_invoice_body InvoiceRepository.create
  dsimp only
  by_cases h1 : (t.sess.cur.invoices.any (fun i => i.id == iid)) = true
  · left
    simp [h1]
  · by_cases h2 : (t.sess.cur.users.any (fun u => u.id == target)) = true
    · right
      refine ⟨by simpa using h1, ?_⟩
      simp [h1, h2, publishEvent]
    · left
      simp [h1, h2]

/-- The body of `mark_invoice_paid` never touches the session's base. -/
theorem mark_invoice_paid_body_base (iid : Nat) (t : TxState) :
    ((InvoiceService.mark_invoice_paid_body iid t).2).sess.base = t.sess.base := by
  unfold InvoiceService.mark_invoice_paid_body
  cases hf : t.sess.cur.findInvoice iid with
  | none => rfl
  | some invoice =>
    dsimp only
    by_cases hp : invoice.status = .paid
    · simp [hp]
    · cases hu : InvoiceRepository.update
          { invoice with
            status := InvoiceStatus.paid, paid_at := some t.now,
            updated_at := t.now } t with
      | mk r t1 =>
        have h0 := update_invoice_repo_base
          { invoice with
            status := InvoiceStatus.paid, paid_at := some t.now,
            updated_at := t.now } t
        rw [hu] at h0
        cases r with
        | error e => simpa [hp] using h0
        | ok updated => simpa [hp, publishEvent] using h0

/-- The body of `mark_invoice_paid` either leaves the invoices table alone
or rewrites exactly the loaded, not-yet-paid row to its paid version. -/
theorem mark_invoice_paid_body_invoices (iid : Nat) (t : TxState) :
    ((InvoiceService.mark_invoice_paid_body iid t).2).sess.cur.invoices = t.sess.cur.invoices
    ∨ ∃ invoice, t.sess.cur.findInvoice iid = some invoice ∧ invoice.status ≠ .paid ∧
        ((InvoiceService.mark_invoice_paid_body iid t).2).sess.cur.invoices
          = (t.sess.cur.setInvoice { invoice with
              status := InvoiceStatus.paid,
              paid_at := some t.now, updated_at := t.now }).invoices := by
  unfold InvoiceService.mark_invoice_paid_body
  cases hf : t.sess.cur.findInvoice iid with
  | none => exact Or.inl rfl
  | some invoice =>
    dsimp only
    by_cases hp : invoice.status = .paid
    · left
      simp [hp]
    · right
      refine ⟨invoice, rfl, hp, ?_⟩
      have hid : invoice.id = iid := findInvoice_id hf
      simp only [if_neg hp]
      unfold InvoiceRepository.update
      dsimp only
      rw [hid, hf]
      simp [publishEvent, DB.setInvoice, hid]

/-- The body of `request_payment` never touches the session at all. -/
theorem request_payment_body_sess (iid : Nat) (t : TxState) :
    ((InvoiceService.request_payment_body iid t).2).sess = t.sess := by
  unfold InvoiceService.request_payment_body
  cases hf : t.sess.cur.findInvoice iid with
  | none => rfl
  | some invoice => rfl

/-- Lookups depend only on the invoices table. -/
theorem findInvoice_congr {d1 d2 : DB} (h : d1.invoices = d2.invoices) (j : Nat) :
    d1.findInvoice j = d2.findInvoice j := by
  unfold DB.findInvoice
  rw [h]

/-- A whole `create_user` call leaves the invoices table unchanged. -/
theorem create_user_world_invoices (uid : Nat) (email name : String) (age : Option Int)
    (w : World) :
    ((UserService.create_user uid email name age w).2).db.invoices = w.db.invoices := by
  unfold UserService.create_user transaction
  cases hb : UserService.create_user_body uid email name age w.openTx with
  | mk r t1 =>
    have h0 := create_user_body_base uid email name age w.openTx
    have h1 := create_user_body_invoices uid email name age w.openTx
    rw [hb] at h0 h1
    dsimp only at h0 h1
    cases r with
    | ok a =>
      dsimp only
      rw [h1]
      rfl
    | error e =>
      dsimp only
      rw [h0]
      rfl

/-- A whole `patch_user` call leaves the invoices table unchanged. -/
theorem patch_user_world_invoices (uid : Nat) (email : RequiredOrUnset String)
    (name : RequiredOrUnset String) (age : OptionalOrUnset Int) (w : World) :
    ((UserService.patch_user uid email name age w).2).db.invoices = w.db.invoices := by
  unfold UserService.patch_user transaction
  cases hb : UserService.patch_user_body uid email name age w.openTx with
  | mk r t1 =>
    have h0 := patch_user_body_base uid email name age w.openTx
    have h1 := patch_user_body_invoices uid email name age w.openTx
    rw [hb] at h0 h1
    dsimp only at h0 h1
    cases r with
    | ok a =>
      dsimp only
      rw [h1]
      rfl
    | error e =>
      dsimp only
      rw [h0]
      rfl

/-- A whole `request_payment` call leaves the store unchanged. -/
theorem request_payment_world_invoices (iid : Nat) (w : World) :
    ((InvoiceService.request_payment iid w).2).db.invoices = w.db.invoices := by
  unfold InvoiceService.request_payment transaction
  cases hb : InvoiceService.request_payment_body iid w.openTx with
  | mk r t1 =>
    have h0 := request_payment_body_sess iid w.openTx
    rw [hb] at h0
    dsimp only at h0
    cases r with
    | ok a =>
      dsimp only
      rw [h0]
      rfl
    | error e =>
      dsimp only
      rw [h0]
      rfl

/-- A whole `delete_user` call either leaves the invoices table unchanged
or bulk-deletes one user's invoices. -/
theorem delete_user_world_invoices (uid : Nat) (w : World) :
    ((UserService.delete_user uid w).2).db.invoices = w.db.invoices
    ∨ ∃ target, ((UserService.delete_user uid w).2).db.invoices
        = w.db.invoices.filter (fun i => !(i.user_id == target)) := by
  unfold UserService.delete_user transaction
  cases hb : UserService.delete_user_body uid w.openTx with
  | mk r t1 =>
    have h0 := delete_user_body_base uid w.openTx
    have h1 := delete_user_body_invoices uid w.openTx
    rw [hb] at h0 h1
    dsimp only at h0 h1
    cases r with
    | error e =>
      refine Or.inl ?_
      dsimp only
      rw [h0]
      rfl
    | ok a =>
      rcases h1 with h1 | ⟨target, h1⟩
      · refine Or.inl ?_
        dsimp only
        rw [h1]
        rfl
      · refine Or.inr ⟨target, ?_⟩
        dsimp only
        rw [h1]
        rfl

/-- A whole `create_invoice` call either leaves the invoices table
unchanged or prepends a fresh `PENDING` row with an unused primary key. -/
theorem create_invoice_world_invoices (iid : Nat) (target : Nat) (amount : Int) (w : World) :
    ((InvoiceService.create_invoice iid target amount w).2).db.invoices = w.db.invoices
    ∨ ((w.db.invoices.any (fun i => i.id == iid)) = false ∧
       ((InvoiceService.create_invoice iid target amount w).2).db.invoices
         = { id := iid, user_id := target, amount := amount, status := .pending,
             created_at := w.now, paid_at := none, updated_at := w.now } :: w.db.invoices) := by
  unfold InvoiceService.create_invoice transaction
  cases hb : InvoiceService.create_invoice_body iid target amount w.openTx with
  | mk r t1 =>
    have h0 := create_invoice_body_base iid target amount w.openTx
    have h1 := create_invoice_body_invoices iid target amount w.openTx
    rw [hb] at h0 h1
    dsimp only at h0 h1
    cases r with
    | error e =>
      refine Or.inl ?_
      dsimp only
      rw [h0]
      rfl
    | ok a =>
      rcases h1 with h1 | ⟨hno, h1⟩
      · refine Or.inl ?_
        dsimp only
        rw [h1]
        rfl
      · refine Or.inr ⟨hno, ?_⟩
        dsimp only
        rw [h1]
        rfl

/-- A whole `mark_invoice_paid` call either leaves the invoices table
unchanged or rewrites the loaded, not-yet-paid row to its paid version. -/
theorem mark_invoice_paid_world_invoices (iid : Nat) (w : World) :
    ((InvoiceService.mark_invoice_paid iid w).2).db.invoices = w.db.invoices
    ∨ ∃ invoice, w.db.findInvoice iid = some invoice ∧ invoice.status ≠ .paid ∧
        ((InvoiceService.mark_invoice_paid iid w).2).db.invoices
          = (w.db.setInvoice { invoice with
              status := InvoiceStatus.paid, paid_at := some w.now,
              updated_at := w.now }).invoices := by
  unfold InvoiceService.mark_invoice_paid transaction
  cases hb : InvoiceService.mark_invoice_paid_body iid w.openTx with
  | mk r t1 =>
    have h0 := mark_invoice_paid_body_base iid w.openTx
    have h1 := mark_invoice_paid_body_invoices iid w.openTx
    rw [hb] at h0 h1
    dsimp only at h0 h1
    cases r with
    | error e =>
      refine Or.inl ?_
      dsimp only
      rw [h0]
      rfl
    | ok a =>
      rcases h1 with h1 | ⟨invoice, hfi, hnp, h1⟩
      · refine Or.inl ?_
        dsimp only
        rw [h1]
        rfl
      · refine Or.inr ⟨invoice, hfi, hnp, ?_⟩
        dsimp only
        rw [h1]
        rfl

/-- Invoice state machine, one step of any service operation: the status of
a row that survives the step is unchanged, except that `mark_invoice_paid`
on that very id moves it from `PENDING` to `PAID`.  The `Nodup` hypothesis
is the primary-key constraint of the `invoices` table. -/
theorem invoice_status_step (op : Op) (w : World) (j : Nat) (i i1 : Invoice)
    (hnd : (w.db.invoices.map Invoice.id).Nodup)
    (hbefore : w.db.findInvoice j = some i)
    (hafter : (applyOp op w).db.findInvoice j = some i1) :
    i1.status = i.status
    ∨ (i.status = .pending ∧ i1.status = .paid ∧ op = .markPaid j) := by
  cases op with
  | createUser uid email name age =>
    unfold applyOp at hafter
    rw [findInvoice_congr (create_user_world_invoices uid email name age w) j,
      hbefore] at hafter
    injection hafter with h2
    exact Or.inl (by rw [h2])
  | patchUser uid email name age =>
    unfold applyOp at hafter
    rw [findInvoice_congr (patch_user_world_invoices uid email name age w) j,
      hbefore] at hafter
    injection hafter with h2
    exact Or.inl (by rw [h2])
  | requestPayment iid =>
    unfold applyOp at hafter
    rw [findInvoice_congr (request_payment_world_invoices iid w) j, hbefore] at hafter
    injection hafter with h2
    exact Or.inl (by rw [h2])
  | deleteUser uid =>
    unfold applyOp at hafter
    rcases delete_user_world_invoices uid w with h | ⟨target, h⟩
    · rw [findInvoice_congr h j, hbefore] at hafter
      injection hafter with h2
      exact Or.inl (by rw [h2])
    · unfold DB.findInvoice at hafter hbefore
      rw [h] at hafter
      exact Or.inl (by rw [findInvoice_filter_eq hnd _ hbefore hafter])
  | createInvoice iid target amount =>
    unfold applyOp at hafter
    rcases create_invoice_world_invoices iid target amount w with h | ⟨hno, h⟩
    · rw [findInvoice_congr h j, hbefore] at hafter
      injection hafter with h2
      exact Or.inl (by rw [h2])
    · unfold DB.findInvoice at hafter hbefore
      rw [h] at hafter
      have hij : iid ≠ j := by
        intro hij
        subst hij
        have hi : i ∈ w.db.invoices := List.mem_of_find?_eq_some hbefore
        have hid : i.id = iid := by simpa using List.find?_some hbefore
        have hany : w.db.invoices.any (fun x => x.id == iid) = true :=
          List.any_eq_true.mpr ⟨i, hi, by simp [hid]⟩
        rw [hany] at hno
        cases hno
      rw [List.find?_cons] at hafter
      have hpr : (iid == j) = false := by simp [hij]
      simp only [hpr] at hafter
      rw [hbefore] at hafter
      injection hafter with h2
      exact Or.inl (by rw [h2])
  | markPaid iid =>
    unfold applyOp at hafter
    rcases mark_invoice_paid_world_invoices iid w with h | ⟨invoice, hfi, hnp, h⟩
    · rw [findInvoice_congr h j, hbefore] at hafter
      injection hafter with h2
      exact Or.inl (by rw [h2])
    · rw [findInvoice_congr h j, findInvoice_setInvoice, hbefore] at hafter
      dsimp only [Option.map] at hafter
      injection hafter with h2
      have hrowid : invoice.id = iid := findInvoice_id hfi
      have hj : i.id = j := findInvoice_id hbefore
      by_cases hc : i.id = invoice.id
      · have hji : j = iid := by rw [← hj, hc, hrowid]
        have hii : i = invoice := by
          rw [hji] at hbefore
          rw [hfi] at hbefore
          injection hbefore with h3
          rw [h3]
        refine Or.inr ⟨?_, ?_, ?_⟩
        · cases hst : i.status with
          | pending => rfl
          | paid =>
            rw [hii] at hst
            exact absurd hst hnp
        · rw [← h2]
          simp [hc]
        · rw [hji]
      · refine Or.inl ?_
        rw [← h2]
        simp [hc]

/-- Writing a row back keeps it visible under its key. -/
theorem findUser_setUser_self {db : DB} {uid : Nat} {row : User} (newRow : User)
    (hfind : db.findUser uid = some row) (hnewid : newRow.id = row.id) :
    (db.setUser newRow).findUser uid = some newRow := by
  rw [findUser_setUser, hfind]
  dsimp only [Option.map]
  simp [hnewid]

/-- Writing a row back leaves every other key's lookup unchanged. -/
theorem findUser_setUser_other {db : DB} {uid : Nat} {row : User} (newRow : User)
    (hfind : db.findUser uid = some row) (hnewid : newRow.id = row.id)
    {j : Nat} (hj : j ≠ uid) :
    (db.setUser newRow).findUser j = db.findUser j := by
  rw [findUser_setUser]
  cases hfj : db.findUser j with
  | none => rfl
  | some u =>
    have hju : u.id = j := findUser_id hfj
    have hru : row.id = uid := findUser_id hfind
    dsimp only [Option.map]
    have hne : (u.id == newRow.id) = false := by
      simp [hju, hnewid, hru, hj]
    rw [hne]
    rfl

/-! ## Claim theorems -/

/-- C1: for every invoice whose status is PAID, `mark_invoice_paid` on that
invoice's id raises `BusinessRuleError` whose message contains
"already paid" and performs no storage write (the store is unchanged); and
across every service operation PENDING-to-PAID via `mark_invoice_paid` is
the only status transition, so PAID is terminal. -/
theorem mark_invoice_paid_already_paid_rejected (w : World) (iid : Nat) (inv : Invoice)
    (hfind : w.db.findInvoice iid = some inv) (hpaid : inv.status = .paid) :
    (InvoiceService.mark_invoice_paid iid w).1
        = .error (.businessRule "Invoice is already paid")
    ∧ (∃ s1 s2, "Invoice is already paid" = s1 ++ "already paid" ++ s2)
    ∧ (InvoiceService.mark_invoice_paid iid w).2.db = w.db
    ∧ ∀ op w1 j i i1, (w1.db.invoices.map Invoice.id).Nodup →
        w1.db.findInvoice j = some i →
        (applyOp op w1).db.findInvoice j = some i1 →
        i1.status = i.status
        ∨ (i.status = .pending ∧ i1.status = .paid ∧ op = .markPaid j) := by
  have hrun : InvoiceService.mark_invoice_paid iid w
      = (.error (.businessRule "Invoice is already paid"),
         { db := w.db, published := w.published, now := w.now }) := by
    unfold InvoiceService.mark_invoice_paid transaction InvoiceService.mark_invoice_paid_body
    dsimp only [World.openTx]
    rw [hfind]
    dsimp only
    rw [if_pos hpaid]
  refine ⟨by rw [hrun], ⟨"Invoice is ", "", rfl⟩, by rw [hrun], ?_⟩
  intro op w1 j i i1 hnd hb ha
  exact invoice_status_step op w1 j i i1 hnd hb ha

/-- Witness for C1 at a concrete already-paid invoice. -/
theorem mark_invoice_paid_already_paid_rejected_witness :
    (InvoiceService.mark_invoice_paid 3 annWorld).1
        = .error (.businessRule "Invoice is already paid")
    ∧ (InvoiceService.mark_invoice_paid 3 annWorld).2.db = annWorld.db := by
  have h := mark_invoice_paid_already_paid_rejected annWorld 3 paidInvoice rfl rfl
  exact ⟨h.1, h.2.2.1⟩

/-- C2: for every stored user and a sparse update that sets exactly one
field as an explicit value (every other field absent), `update_partial`
succeeds, rewrites only that column together with `updated_at = now` on
the targeted row, and leaves every other row's lookup unchanged. -/
theorem update_partial_single_field_frame (t : TxState) (uid : Nat) (row : User)
    (hfind : t.sess.cur.findUser uid = some row) :
    (∀ e : String,
      ( UserRepository.update_partial uid { email := some e } t).1
          = .ok { row with email := e, updated_at := t.now }
      ∧ (( UserRepository.update_partial uid { email := some e } t).2).sess.cur.findUser uid
          = some { row with email := e, updated_at := t.now }
      ∧ ∀ j, j ≠ uid →
          (( UserRepository.update_partial uid { email := some e } t).2).sess.cur.findUser j
            = t.sess.cur.findUser j)
    ∧ (∀ n : String,
      ( UserRepository.update_partial uid { name := some n } t).1
          = .ok { row with name := n, updated_at := t.now }
      ∧ (( UserRepository.update_partial uid { name := some n } t).2).sess.cur.findUser uid
          = some { row with name := n, updated_at := t.now }
      ∧ ∀ j, j ≠ uid →
          (( UserRepository.update_partial uid { name := some n } t).2).sess.cur.findUser j
            = t.sess.cur.findUser j)
    ∧ (∀ a : Int,
      ( UserRepository.update_partial uid { age := some a } t).1
          = .ok { row with age := some a, updated_at := t.now }
      ∧ (( UserRepository.update_partial uid { age := some a } t).2).sess.cur.findUser uid
          = some { row with age := some a, updated_at := t.now }
      ∧ ∀ j, j ≠ uid →
          (( UserRepository.update_partial uid { age := some a } t).2).sess.cur.findUser j
            = t.sess.cur.findUser j) := by
  refine ⟨fun e => ?_, fun n => ?_, fun a => ?_⟩
  · have hrun : UserRepository.update_partial uid { email := some e } t
        = (.ok { row with email := e, updated_at := t.now },
           { t with sess := { t.sess with
               cur := t.sess.cur.setUser { row with email := e, updated_at := t.now } } }) := by
      unfold UserRepository.update_partial
      rw [hfind]
      rfl
    refine ⟨by rw [hrun], ?_, fun j hj => ?_⟩
    · rw [hrun]
      exact findUser_setUser_self { row with email := e, updated_at := t.now } hfind rfl
    · rw [hrun]
      exact findUser_setUser_other { row with email := e, updated_at := t.now } hfind rfl hj
  · have hrun : UserRepository.update_partial uid { name := some n } t
        = (.ok { row with name := n, updated_at := t.now },
           { t with sess := { t.sess with
               cur := t.sess.cur.setUser { row with name := n, updated_at := t.now } } }) := by
      unfold UserRepository.update_partial
      rw [hfind]
      rfl
    refine ⟨by rw [hrun], ?_, fun j hj => ?_⟩
    · rw [hrun]
      exact findUser_setUser_self { row with name := n, updated_at := t.now } hfind rfl
    · rw [hrun]
      exact findUser_setUser_other { row with name := n, updated_at := t.now } hfind rfl hj
  · have hrun : UserRepository.update_partial uid { age := some a } t
        = (.ok { row with age := some a, updated_at := t.now },
           { t with sess := { t.sess with
               cur := t.sess.cur.setUser { row with age := some a, updated_at := t.now } } }) := by
      unfold UserRepository.update_partial
      rw [hfind]
      rfl
    refine ⟨by rw [hrun], ?_, fun j hj => ?_⟩
    · rw [hrun]
      exact findUser_setUser_self { row with age := some a, updated_at := t.now } hfind rfl
    · rw [hrun]
      exact findUser_setUser_other { row with age := some a, updated_at := t.now } hfind rfl hj

/-- Witness for C2: patching only the name of a concrete stored user. -/
theorem update_partial_single_field_frame_witness :
    ( UserRepository.update_partial 1 { name := some "Beth" } annTx).1
      = .ok { annUser with name := "Beth", updated_at := 9 } := by
  have h := update_partial_single_field_frame annTx 1 annUser rfl
  exact (h.2.1 "Beth").1

/-- C3: `patch_user` with every field absent performs no mutating storage
write (`update_partial` reports no-fields-to-update, which the service
catches), returns the pre-existing entity unchanged, and publishes no
event: the call is the identity on the whole world. -/
theorem patch_user_all_absent_noop (w : World) (uid : Nat) (user : User)
    (hfind : w.db.findUser uid = some user) :
    UserService.patch_user uid .unset .unset .unset w = (.ok user, w) := by
  unfold UserService.patch_user transaction UserService.patch_user_body
  dsimp only [World.openTx]
  rw [hfind]
  dsimp only
  unfold validate_name validate_email_not_duplicate model.UserUpdate.toCommand
  dsimp only
  unfold UserRepository.update_partial
  rw [hfind]
  rfl

/-- Witness for C3 at a concrete stored user. -/
theorem patch_user_all_absent_noop_witness :
    UserService.patch_user 1 .unset .unset .unset annWorld = (.ok annUser, annWorld) :=
  patch_user_all_absent_noop annWorld 1 annUser rfl

/-- C4: a block run inside `transaction` that completes is committed (the
session's writes become the durable state); a block that raises is rolled
back (the durable state is exactly the one from before the transaction)
and the error propagates to the caller.  The hypothesis states that the
block never touches the session's recorded base state, which holds for
every repository operation. -/
theorem transaction_commits_on_success_rolls_back_on_error {α : Type}
    (block : TxState → Except Err α × TxState) (w : World)
    (hbase : ((block w.openTx).2).sess.base = w.db) :
    (∀ a t1, block w.openTx = (.ok a, t1) →
      transaction block w
        = (.ok a, { db := t1.sess.cur, published := t1.published, now := t1.now }))
    ∧ (∀ e t1, block w.openTx = (.error e, t1) →
      transaction block w
        = (.error e, { db := w.db, published := t1.published, now := t1.now })) := by
  constructor
  · intro a t1 hb
    unfold transaction
    rw [hb]
  · intro e t1 hb
    unfold transaction
    rw [hb]
    rw [hb] at hbase
    dsimp only
    dsimp only at hbase
    rw [hbase]

/-- Witness for C4: a concrete block that deletes a user row and then
raises; the transaction reports the error and the durable state still
holds the row. -/
theorem transaction_rollback_witness :
    transaction demoFailBlock annWorld
      = (.error (.businessRule "boom"),
         { db := annWorld.db, published := [], now := 5 }) := by
  exact (transaction_commits_on_success_rolls_back_on_error demoFailBlock annWorld rfl).2
    (.businessRule "boom") ((demoFailBlock annWorld.openTx).2) rfl

/-- C5 (evidence of the divergence): with no stored users,
`create_invoice` never performs the cross-aggregate existence check — the
insert is attempted and fails at the store as a foreign-key
`DatabaseError`, not as the `NotFoundError` that the uncalled
`validate_create_invoice_request` would have produced. -/
theorem create_invoice_missing_user_not_validated :
    InvoiceService.create_invoice 9 7 100 emptyWorld
      = (.error (.databaseError
          "insert or update on table invoices violates foreign key constraint"),
         emptyWorld)
    ∧ validate_create_invoice_request 7 emptyWorld.openTx
      = .error (.notFound "User" "7") := by
  constructor
  · rfl
  · rfl

/-- C6 (evidence of the divergence): `create_user` never validates the
name; a whitespace-only name is inserted and `user.created` is published,
while the uncalled validator (`validate_name`, the check inside
`validate_create_user_request`) would have rejected it with
`ValidationError(field="name")`. -/
theorem create_user_blank_name_inserted :
    UserService.create_user 1 "a@b.com" " " none emptyWorld
      = (.ok { id := 1, email := "a@b.com", name := " ", age := none,
               created_at := 5, updated_at := 5 },
         { db := { users := [{ id := 1, email := "a@b.com", name := " ", age := none,
                               created_at := 5, updated_at := 5 }], invoices := [] },
           published := [{ event_type := "user.created", aggregate_type := "user",
                           aggregate_id := "1" }],
           now := 5 })
    ∧ validate_name (.value " ")
      = .error (.validation "Name cannot be empty" (some "name")) := by
  constructor
  · rfl
  · rfl

/-- C7: creating a user whose email equals a stored user's email always
fails with `DuplicateError(field="email")` and leaves the whole world
unchanged (no row inserted, no event published); the existence check and
the insert live in the same transaction body. -/
theorem create_user_duplicate_email (w : World) (uid : Nat) (email name : String)
    (age : Option Int) (existing : User) (hmem : existing ∈ w.db.users)
    (hemail : existing.email = email) :
    (UserService.create_user uid email name age w).1
      = .error (.duplicate "User" "email" email)
    ∧ (UserService.create_user uid email name age w).2 = w := by
  have hfe : ∃ u, w.db.findUserByEmail email = some u := by
    unfold DB.findUserByEmail
    cases hq : w.db.users.find? (fun u => u.email == email) with
    | some u => exact ⟨u, rfl⟩
    | none =>
      exfalso
      have hne := List.find?_eq_none.mp hq existing hmem
      simp [hemail] at hne
  rcases hfe with ⟨u, hu⟩
  have hrun : UserService.create_user uid email name age w
      = (.error (.duplicate "User" "email" email),
         { db := w.db, published := w.published, now := w.now }) := by
    unfold UserService.create_user transaction UserService.create_user_body
    dsimp only [World.openTx]
    rw [hu]
  constructor
  · rw [hrun]
  · rw [hrun]

/-- Witness for C7 at a concrete duplicate email. -/
theorem create_user_duplicate_email_witness :
    (UserService.create_user 2 "a@b.com" "Bob" none annWorld).1
      = .error (.duplicate "User" "email" "a@b.com")
    ∧ (UserService.create_user 2 "a@b.com" "Bob" none annWorld).2 = annWorld :=
  create_user_duplicate_email annWorld 2 "a@b.com" "Bob" none annUser
    (List.mem_singleton.mpr rfl) rfl

/-- C8 counterexample: repository `update` is not a full replace of the
mutable fields — called with a user whose `age` is 31, it leaves the
stored row's `age` at 30 (it assigns only `email`, `name` and
`updated_at`). -/
theorem update_ignores_age_counterexample :
    ((UserRepository.update annUserAge31 annTx).2).sess.cur.findUser 1
      = some { annUser with updated_at := 9 }
    ∧ annUserAge31.age = some 31
    ∧ (((UserRepository.update annUserAge31 annTx).2).sess.cur.findUser 1).map User.age
        ≠ some annUserAge31.age := by
  refine ⟨rfl, rfl, ?_⟩
  intro h
  simp [annUserAge31, annUser, annTx, UserRepository.update, DB.findUser, DB.setUser,
    TxState.sess] at h

/-- C8 amended: after a successful repository `update` with entity `u`, the
stored row carries `u`'s email and name and a refreshed `updated_at`,
while `age` and `created_at` keep their stored values; every other row's
lookup is unchanged. -/
theorem update_replaces_email_name_only (t : TxState) (u : User) (stored : User)
    (hfind : t.sess.cur.findUser u.id = some stored) :
    (UserRepository.update u t).1
      = .ok { stored with email := u.email, name := u.name, updated_at := t.now }
    ∧ ((UserRepository.update u t).2).sess.cur.findUser u.id
      = some { stored with email := u.email, name := u.name, updated_at := t.now }
    ∧ ∀ j, j ≠ u.id → ((UserRepository.update u t).2).sess.cur.findUser j
        = t.sess.cur.findUser j := by
  have hrun : UserRepository.update u t
      = (.ok { stored with email := u.email, name := u.name, updated_at := t.now },
         { t with sess := { t.sess with
             cur := t.sess.cur.setUser
               { stored with email := u.email, name := u.name, updated_at := t.now } } }) := by
    unfold UserRepository.update
    rw [hfind]
  refine ⟨by rw [hrun], ?_, fun j hj => ?_⟩
  · rw [hrun]
    exact findUser_setUser_self
      { stored with email := u.email, name := u.name, updated_at := t.now } hfind rfl
  · rw [hrun]
    exact findUser_setUser_other
      { stored with email := u.email, name := u.name, updated_at := t.now } hfind rfl hj

/-- Witness for the amended C8 at a concrete stored user. -/
theorem update_replaces_email_name_only_witness :
    (UserRepository.update annUserAge31 annTx).1
      = .ok { annUser with updated_at := 9 } := by
  have h := update_replaces_email_name_only annTx annUserAge31 annUser rfl
  exact h.1

/-- C9: a consumed message whose handler raises is never acknowledged (its
receipt handle is never deleted, leaving it eligible for redelivery), and
the consumption loop keeps processing: every message of the trace whose
decode and handler succeed is acknowledged, regardless of the failure. -/
theorem consume_never_acks_failed_handler
    (deserializer : String → Except String Event) (handler : Event → Except String Unit)
    (batches : List (Except String (List SQSConsumer.SQSMessage)))
    (m : SQSConsumer.SQSMessage) (event : Event) (err : String)
    (hde : deserializer m.body = .ok event) (hfail : handler event = .error err)
    (huniq : ∀ m1 ∈ okMessages batches, m1.receiptHandle = m.receiptHandle → m1 = m) :
    m.receiptHandle ∉ SQSConsumer.consume deserializer handler batches
    ∧ ∀ m1 ∈ okMessages batches, ∀ ev1, deserializer m1.body = .ok ev1 →
        handler ev1 = .ok () →
        m1.receiptHandle ∈ SQSConsumer.consume deserializer handler batches := by
  have hc := consume_eq_processBatch_okMessages deserializer handler batches
  have hpm : SQSConsumer.processMessage deserializer handler m = [] := by
    unfold SQSConsumer.processMessage
    rw [hde]
    dsimp only
    rw [hfail]
    rfl
  constructor
  · rw [hc]
    exact processBatch_no_ack_of_fail deserializer handler hpm huniq
  · intro m1 hm1 ev1 hd1 hh1
    rw [hc]
    exact processBatch_ack_of_ok deserializer handler hm1 hd1 hh1

/-- Witness for C9 on a concrete trace: the failed receive is skipped, the
failing message's handle 10 is never deleted, and the succeeding
message's handle 11 is. -/
theorem consume_never_acks_failed_handler_witness :
    (10 : Nat) ∉ SQSConsumer.consume demoDeserializer demoHandler demoBatches
    ∧ (11 : Nat) ∈ SQSConsumer.consume demoDeserializer demoHandler demoBatches := by
  have h := consume_never_acks_failed_handler demoDeserializer demoHandler demoBatches
    { receiptHandle := 10, body := "fail" }
    { event_type := "fail", aggregate_type := "invoice", aggregate_id := "1" }
    "handler failure" rfl rfl (by decide)
  refine ⟨h.1, ?_⟩
  exact h.2 { receiptHandle := 11, body := "ok" } (by decide)
    { event_type := "ok", aggregate_type := "invoice", aggregate_id := "1" } rfl rfl

/-- C10 counterexample: for a stored user whose name is whitespace-only,
calling `patch_user` with every field provided as an explicit value equal
to the current one does not write at all — the call fails
`ValidationError(field="name")` (the provided name is re-validated even
when unchanged) and the world is untouched. -/
theorem patch_user_equal_values_blank_name_counterexample :
    UserService.patch_user 1 (.value "b@c.com") (.value " ") .null blankNameWorld
      = (.error (.validation "Name cannot be empty" (some "name")), blankNameWorld) := by
  rfl

/-- C10 amended: for a stored user whose name is non-empty after trimming,
`patch_user` with every field provided as an explicit value equal to the
current value still performs the storage write (the row is rewritten with
`updated_at` refreshed to the clock, hence newer whenever the clock
advanced) but publishes no `user.updated` event, because the computed
diff is empty. -/
theorem patch_user_equal_values_refresh_no_event (w : World) (uid : Nat) (user : User)
    (hfind : w.db.findUser uid = some user)
    (htrim : strip user.name ≠ "")
    (hclock : user.updated_at < w.now) :
    (UserService.patch_user uid (.value user.email) (.value user.name)
        (ageExplicit user.age) w).1 = .ok { user with updated_at := w.now }
    ∧ ((UserService.patch_user uid (.value user.email) (.value user.name)
        (ageExplicit user.age) w).2).db.findUser uid
      = some { user with updated_at := w.now }
    ∧ user.updated_at < ({ user with updated_at := w.now } : User).updated_at
    ∧ ((UserService.patch_user uid (.value user.email) (.value user.name)
        (ageExplicit user.age) w).2).published = w.published := by
  have hne : user.name ≠ "" := by
    intro h
    apply htrim
    rw [h]
    rfl
  have hval : validate_name (.value user.name) = .ok () := by
    simp [validate_name, hne, htrim]
  have hvd : validate_email_not_duplicate (.value user.email) user.email w.openTx
      = .ok () := by
    simp [validate_email_not_duplicate]
  have hch : generate_user_changes
      { email := .value user.email, name := .value user.name, age := ageExplicit user.age }
      user = [] := by
    unfold generate_user_changes
    cases hage : user.age <;> simp [ageExplicit, hage]
  have hup : UserRepository.update_partial uid
      (model.UserUpdate.toCommand
        { email := .value user.email, name := .value user.name, age := ageExplicit user.age })
      w.openTx
      = (.ok { user with updated_at := w.now },
         { w.openTx with sess := { w.openTx.sess with
             cur := w.openTx.sess.cur.setUser { user with updated_at := w.now } } }) := by
    unfold UserRepository.update_partial model.UserUpdate.toCommand
    dsimp only
    rw [show w.openTx.sess.cur.findUser uid = some user from hfind]
    cases hage : user.age with
    | none =>
      dsimp only [ageExplicit]
      rw [hage]
      rfl
    | some n =>
      dsimp only [ageExplicit]
      rfl
  have hrun : UserService.patch_user uid (.value user.email) (.value user.name)
      (ageExplicit user.age) w
      = (.ok { user with updated_at := w.now },
         { db := w.db.setUser { user with updated_at := w.now },
           published := w.published, now := w.now }) := by
    unfold UserService.patch_user transaction UserService.patch_user_body
    rw [show w.openTx.sess.cur.findUser uid = some user from hfind]
    dsimp only
    rw [hval]
    dsimp only
    rw [hvd]
    dsimp only
    rw [hup]
    dsimp only
    rw [hch]
    rfl
  refine ⟨by rw [hrun], ?_, hclock, by rw [hrun]⟩
  rw [hrun]
  dsimp only
  exact findUser_setUser_self { user with updated_at := w.now } hfind rfl

/-- Witness for the amended C10 at a concrete stored user. -/
theorem patch_user_equal_values_refresh_no_event_witness :
    (UserService.patch_user 1 (.value "a@b.com") (.value "Ann")
        (ageExplicit (some 30)) annWorld).1 = .ok { annUser with updated_at := 5 }
    ∧ ((UserService.patch_user 1 (.value "a@b.com") (.value "Ann")
        (ageExplicit (some 30)) annWorld).2).published = annWorld.published := by
  have h := patch_user_equal_values_refresh_no_event annWorld 1 annUser rfl
    (by decide) (by decide)
  exact ⟨h.1, h.2.2.2⟩

end App
